import Mathlib

/-!
Shallow embedding of the bulletin-board web server (`src/react-dom/server.js`)
and proofs about its routing, CRUD, authentication and listing behaviour.

Conventions of the embedding:
* JavaScript numbers appearing as ids, timestamps and page indices are embedded
  as `Int` (all arithmetic the server performs on them is exact integer
  arithmetic); `parseInt` results are `Option Int`, with `none` standing for
  `NaN`.
* `new Date(t)` comparisons in the sort comparators act on the numeric value of
  the timestamp, so `created_at` / `updated_at` are embedded directly as that
  numeric value.
* JavaScript objects used as string-keyed maps (the parsed cookie object, the
  `sessions` table) are embedded as association lists with unique keys.
* `undefined` form fields / query parameters are embedded as `Option` values.
* Handlers are embedded as pure functions from their inputs (resolved user,
  parsed body/query, current state) to the HTTP status written by
  `response.writeHead` together with the successor state.  A JavaScript
  `Array.prototype.sort` call (stable, comparator-driven) is embedded as
  `List.mergeSort` with `le a b ↔ cmp a b ≤ 0`.
-/

namespace Board

/-- A post (`topics` element): `{ id, title, description, created_at,
updated_at, author }` (server.js line 15 and the `/create_process` handler).
`created_at`/`updated_at` hold the numeric value of the stored timestamp. -/
structure Topic where
  id : Int
  title : String
  description : String
  created_at : Int
  updated_at : Int
  author : Int
  deriving Repr, DecidableEq

/-- A user record (`users` element): `{ id, username, password, nickname }`
(server.js `/register_process` handler, lines 639-644). -/
structure User where
  id : Int
  username : String
  password : String
  nickname : String
  deriving Repr, DecidableEq

/-- The record returned by `getLoggedInUser` (server.js lines 83-85): a copy of
a `User` from which the `password` field has been deleted.  The absence of a
`password` field is structural. -/
structure PublicUser where
  id : Int
  username : String
  nickname : String
  deriving Repr, DecidableEq

/-- `{ ...user }` followed by `delete loggedInUser.password`
(server.js lines 83-84). -/
def stripPassword (u : User) : PublicUser :=
  { id := u.id, username := u.username, nickname := u.nickname }

/-- The in-memory post store: the `topics` array together with the `nextId`
counter (server.js lines 18, 20). -/
structure PostState where
  topics : List Topic
  nextId : Int
  deriving Repr, DecidableEq

/-- The in-memory user store: the `users` array together with the `nextUserId`
counter (server.js lines 19, 21). -/
structure UserState where
  users : List User
  nextUserId : Int
  deriving Repr, DecidableEq

/-- `isEmptyOrWhitespace` (server.js line 63):
`(!str || str.trim().length === 0)`.  `str.trim()` is empty exactly when
every character of `str` is whitespace (vacuously so for the empty string,
which also covers the falsy `!str` disjunct for a present field). -/
def isEmptyOrWhitespace (s : String) : Bool :=
  s.data.all (fun c => c.isWhitespace)

/-- Numeric value of the longest leading run of decimal digits of a character
list; `none` when that run is empty (the `NaN` case of `parseInt`). -/
def leadingDigitsVal (cs : List Char) : Option Nat :=
  let ds := cs.takeWhile (fun c => c.isDigit)
  if ds.isEmpty then none
  else some (ds.foldl (fun acc c => 10 * acc + (c.toNat - 48)) 0)

/-- JavaScript `parseInt(str)` with radix 10 on the inputs this server meets:
leading whitespace is skipped, an optional sign is read, then the longest run
of decimal digits; anything after it is ignored; `none` models `NaN`. -/
def parseIntJS (s : String) : Option Int :=
  match s.data.dropWhile (fun c => c.isWhitespace) with
  | '-' :: rest => (leadingDigitsVal rest).map (fun n => -(n : Int))
  | '+' :: rest => (leadingDigitsVal rest).map (fun n => (n : Int))
  | cs => (leadingDigitsVal cs).map (fun n => (n : Int))

/-- `parseInt` applied to an optional string: a missing query/body field is
`undefined` and `parseInt(undefined)` is `NaN`. -/
def parseIntOpt (s : Option String) : Option Int :=
  s.bind parseIntJS

/-- Lookup in a string-keyed object embedded as an association list. -/
def lookupStr (l : List (String × String)) (k : String) : Option String :=
  (l.find? (fun p => p.1 == k)).map Prod.snd

/-- Lookup in the `sessions` table (token → user id). -/
def lookupSession (sessions : List (String × Int)) (token : String) : Option Int :=
  (sessions.find? (fun p => p.1 == token)).map Prod.snd

/-- `getLoggedInUser` (server.js lines 76-89).  The parsed cookie object is the
`cookies` association list.  `if (sessionId && sessions[sessionId])` tests
JavaScript truthiness, so an empty-string cookie value and a session entry
mapping to user id `0` both fail the guard. -/
def getLoggedInUser (cookies : List (String × String))
    (sessions : List (String × Int)) (users : List User) : Option PublicUser :=
  match lookupStr cookies "sessionId" with
  | none => none
  | some sid =>
    if sid = "" then none
    else
      match lookupSession sessions sid with
      | none => none
      | some userId =>
        if userId = 0 then none
        else
          match users.find? (fun u => u.id == userId) with
          | none => none
          | some user => some (stripPassword user)

/-- Startup initialization of `nextId` (server.js line 51):
`topics.length > 0 ? Math.max(...topics.map(t => t.id)) + 1 : 1`.
`Math.max` over a non-empty argument list is a left fold of the binary max. -/
def initNextId (ts : List Topic) : Int :=
  match ts with
  | [] => 1
  | t :: rest => (rest.foldl (fun m x => max m x.id) t.id) + 1

/-- `sortTopics` (server.js lines 92-104).  `Array.prototype.sort` is a stable
comparator sort placing `a` before `b` when `cmp(a, b) ≤ 0`; it is embedded as
`List.mergeSort` with `le a b := cmp a b ≤ 0`.  The comparator for `latest` is
`new Date(b.created_at) - new Date(a.created_at)` (descending), for `oldest`
the same ascending, for `title_asc` a string comparison on `title`; the
`default` branch of the `switch` repeats the `latest` comparator. -/
def sortTopics (topicArray : List Topic) (sort : String) : List Topic :=
  if sort == "latest" then
    topicArray.mergeSort (fun a b => decide (b.created_at ≤ a.created_at))
  else if sort == "oldest" then
    topicArray.mergeSort (fun a b => decide (a.created_at ≤ b.created_at))
  else if sort == "title_asc" then
    topicArray.mergeSort (fun a b => decide (a.title ≤ b.title))
  else
    topicArray.mergeSort (fun a b => decide (b.created_at ≤ a.created_at))

/-- The page slice computed in the `'/'` handler (server.js lines 343-345):
`startIndex = (page - 1) * limit; endIndex = startIndex + limit;
sortedTopics.slice(startIndex, endIndex)`.  For the page numbers the claims
quantify over (`page ≥ 1`) the indices are non-negative and `slice` is
drop-then-take. -/
def pageSlice (sorted : List Topic) (page limit : Nat) : List Topic :=
  (sorted.drop ((page - 1) * limit)).take limit

/-- `Math.ceil(totalTopics / limit)` for a positive integer `limit`
(server.js line 186). -/
def totalPagesNat (totalTopics limit : Nat) : Nat :=
  (totalTopics + limit - 1) / limit

/-- Concatenation of the page slices for pages `1 .. totalPages`. -/
def allPages (sorted : List Topic) (limit : Nat) : List Topic :=
  ((List.range (totalPagesNat sorted.length limit)).map
    (fun i => pageSlice sorted (i + 1) limit)).flatten

/-- `parseInt(q) || d` (server.js lines 334-335): `NaN` and `0` are falsy and
give the default `d`; any other parsed integer is kept. -/
def intOrDefault (s : Option String) (d : Int) : Int :=
  match s with
  | none => d
  | some str =>
    match parseIntJS str with
    | none => d
    | some n => if n = 0 then d else n

/-- `const page = parseInt(query.page) || 1` (server.js line 334). -/
def pageParam (q : Option String) : Int :=
  intOrDefault q 1

/-- `const limit = parseInt(query.limit) || DEFAULT_ITEMS_PER_PAGE`
(server.js line 335, with `DEFAULT_ITEMS_PER_PAGE = 10`). -/
def limitParam (q : Option String) : Int :=
  intOrDefault q 10

/-- `topics.find(t => t.id === topicId)` where `topicId` is a `parseInt`
result: a strict comparison with `NaN` (`none`) matches nothing. -/
def findTopic (topics : List Topic) (parsedId : Option Int) : Option Topic :=
  topics.find? (fun t => parsedId == some t.id)

/-- HTTP status written by the GET `/update` handler (server.js lines
438-452): not logged in → 302 to `/login`; unknown id or author mismatch →
403; otherwise the edit form is served with 200. -/
def updateGetStatus (loggedInUser : Option PublicUser) (qid : Option String)
    (topics : List Topic) : Nat :=
  match loggedInUser with
  | none => 302
  | some u =>
    match findTopic topics (parseIntOpt qid) with
    | none => 403
    | some topic => if topic.author == u.id then 200 else 403

/-- The `/create_process` handler (server.js lines 565-586): not logged in →
`throw`, caught by the POST wrapper as 500; blank title or description → 400;
otherwise a new topic with id `nextId++` is appended and 302 is written.
`now` is the numeric value of `new Date().toISOString()`. -/
def createProcess (postLoggedInUser : Option PublicUser)
    (title description : String) (now : Int) (st : PostState) :
    Nat × PostState :=
  match postLoggedInUser with
  | none => (500, st)
  | some u =>
    if isEmptyOrWhitespace title || isEmptyOrWhitespace description then
      (400, st)
    else
      let newTopic : Topic :=
        { id := st.nextId, title := title, description := description,
          created_at := now, updated_at := now, author := u.id }
      (302, { topics := st.topics ++ [newTopic], nextId := st.nextId + 1 })

/-- The `/update_process` handler (server.js lines 588-606): not logged in →
`throw`/500; `findIndex` missing or author mismatch → 403; otherwise
`title`, `description` and `updated_at` of the found element are overwritten
in place and 302 is written.  No blank-field validation is performed. -/
def updateProcess (postLoggedInUser : Option PublicUser) (pid : Option String)
    (title description : String) (now : Int) (st : PostState) :
    Nat × PostState :=
  match postLoggedInUser with
  | none => (500, st)
  | some u =>
    let idToUpdate := parseIntOpt pid
    match st.topics.findIdx? (fun t => idToUpdate == some t.id) with
    | none => (403, st)
    | some i =>
      match st.topics[i]? with
      | none => (403, st)
      | some topic =>
        if topic.author == u.id then
          (302, { topics := st.topics.set i
                    { topic with title := title, description := description,
                                 updated_at := now },
                  nextId := st.nextId })
        else (403, st)

/-- The `/delete_process` handler (server.js lines 608-624): not logged in →
`throw`/500; unknown id or author mismatch → 403; otherwise the topic is
removed by `topics.filter(t => t.id !== idToDelete)` (the `nextId` counter is
untouched) and 302 is written. -/
def deleteProcess (postLoggedInUser : Option PublicUser) (pid : Option String)
    (st : PostState) : Nat × PostState :=
  match postLoggedInUser with
  | none => (500, st)
  | some u =>
    let idToDelete := parseIntOpt pid
    match findTopic st.topics idToDelete with
    | none => (403, st)
    | some topicToDelete =>
      if topicToDelete.author == u.id then
        (302, { topics := st.topics.filter (fun t => !(idToDelete == some t.id)),
                nextId := st.nextId })
      else (403, st)

/-- The `/register_process` handler (server.js lines 626-650): any blank field
→ 400; otherwise a case-sensitively identical existing `username` → 409;
otherwise the user is appended with id `nextUserId++` and 302 is written. -/
def registerProcess (username password nickname : String) (st : UserState) :
    Nat × UserState :=
  if isEmptyOrWhitespace username || isEmptyOrWhitespace password ||
      isEmptyOrWhitespace nickname then
    (400, st)
  else if st.users.any (fun u => u.username == username) then
    (409, st)
  else
    (302, { users := st.users ++
              [{ id := st.nextUserId, username := username,
                 password := password, nickname := nickname }],
            nextUserId := st.nextUserId + 1 })

/-- The client-side constraint the register form declares for usernames
(server.js line 518): `pattern="[a-zA-Z0-9]{4,}"`. -/
def isValidUsernamePattern (s : String) : Bool :=
  decide (s.length ≥ 4) && s.data.all (fun c => c.isAlphanum)

/-- Which branch of the top-level dispatcher (server.js lines 321-698) handles
a request.  Six paths are matched before the method test and answered for any
method; only then does `request.method === 'POST'` route into the POST body
reader, whose inner `if`/`else if` chain recognises five `_process` paths and
has no `else`: a POST to any other path falls through with no
`response.end` ever called. -/
inductive Dispatch where
  /-- One of the six paths served directly, for any method. -/
  | page (route : String)
  /-- One of the five POST-only `_process` handlers. -/
  | postHandler (route : String)
  /-- A POST to any other path: the body is read, the inner chain matches
  nothing, and no response is written. -/
  | postNoResponse
  /-- The final `else`: `writeHead(404)` and the 404 page. -/
  | notFound
  deriving Repr, DecidableEq

/-- The dispatch decision of the request router (server.js lines 331, 404,
438, 482, 508, 532, 545, 565, 588, 608, 626, 652, 687). -/
def dispatch (method pathName : String) : Dispatch :=
  if pathName == "/" then .page "/"
  else if pathName == "/create" then .page "/create"
  else if pathName == "/update" then .page "/update"
  else if pathName == "/login" then .page "/login"
  else if pathName == "/register" then .page "/register"
  else if pathName == "/logout_process" then .page "/logout_process"
  else if method == "POST" then
    if pathName == "/create_process" then .postHandler "/create_process"
    else if pathName == "/update_process" then .postHandler "/update_process"
    else if pathName == "/delete_process" then .postHandler "/delete_process"
    else if pathName == "/register_process" then .postHandler "/register_process"
    else if pathName == "/login_process" then .postHandler "/login_process"
    else .postNoResponse
  else .notFound

/-- The six paths matched ahead of the method test. -/
def pageRoutes : List String :=
  ["/", "/create", "/update", "/login", "/register", "/logout_process"]

/-- The five paths the POST body reader recognises. -/
def processRoutes : List String :=
  ["/create_process", "/update_process", "/delete_process",
   "/register_process", "/login_process"]

/-! ## Theorems -/

/-- C10: a `page` or `limit` query parameter whose `parseInt` yields `0` is
treated exactly like a missing or non-numeric one and replaced by the defaults
(page 1, limit 10), and the effective `limit` fed to the
`Math.ceil(totalTopics / limit)` computation is never `0`. -/
theorem zero_page_limit_defaults :
    (∀ s : String, parseIntJS s = some 0 →
      pageParam (some s) = pageParam none ∧ pageParam none = 1 ∧
      limitParam (some s) = limitParam none ∧ limitParam none = 10) ∧
    (∀ q : Option String, limitParam q ≠ 0) := by
  constructor
  · intro s hs
    simp [pageParam, limitParam, intOrDefault, hs]
  · intro q
    cases q with
    | none => simp [limitParam, intOrDefault]
    | some str =>
      simp only [limitParam, intOrDefault]
      cases h : parseIntJS str with
      | none => simp
      | some n =>
        by_cases hn : n = 0
        · simp [hn]
        · simp [hn]

/-- Witness for `zero_page_limit_defaults` at the concrete string `"0"`. -/
theorem zero_page_limit_defaults_witness :
    pageParam (some "0") = pageParam none ∧ pageParam none = 1 ∧
    limitParam (some "0") = limitParam none ∧ limitParam none = 10 :=
  zero_page_limit_defaults.1 "0" (by decide)

/-- C7 counterexample: a POST to a path outside every defined route is taken
by the POST body reader, whose inner handler chain has no `else`, so no
response is written at all — not the claimed 404 page. -/
theorem post_unmatched_path_no_response :
    dispatch "POST" "/nope" = Dispatch.postNoResponse ∧
    Dispatch.postNoResponse ≠ Dispatch.notFound := by
  decide

/-- C7 amended: a request whose path matches none of the six directly served
paths reaches the 404 branch for every non-POST method (including the five
`_process` paths), while a POST to a path outside all defined routes is
consumed by the POST body reader without any response being written. -/
theorem unmatched_path_404 :
    (∀ method pathName : String, method ≠ "POST" → pathName ∉ pageRoutes →
      dispatch method pathName = Dispatch.notFound) ∧
    (∀ pathName : String, pathName ∉ pageRoutes → pathName ∉ processRoutes →
      dispatch "POST" pathName = Dispatch.postNoResponse) := by
  constructor
  · intro method pathName hm hp
    simp only [pageRoutes, List.mem_cons, List.not_mem_nil, or_false,
      not_or] at hp
    obtain ⟨h1, h2, h3, h4, h5, h6⟩ := hp
    simp [dispatch, h1, h2, h3, h4, h5, h6, hm]
  · intro pathName hp hq
    simp only [pageRoutes, processRoutes, List.mem_cons, List.not_mem_nil,
      or_false, not_or] at hp hq
    obtain ⟨h1, h2, h3, h4, h5, h6⟩ := hp
    obtain ⟨g1, g2, g3, g4, g5⟩ := hq
    simp [dispatch, h1, h2, h3, h4, h5, h6, g1, g2, g3, g4, g5]

/-- Witness for `unmatched_path_404` at concrete method/path pairs. -/
theorem unmatched_path_404_witness :
    dispatch "GET" "/nope" = Dispatch.notFound ∧
    dispatch "POST" "/other" = Dispatch.postNoResponse :=
  ⟨unmatched_path_404.1 "GET" "/nope" (by decide) (by decide),
   unmatched_path_404.2 "/other" (by decide) (by decide)⟩

/-- C3 counterexample: a request whose `username` equals an existing user's
username but whose `password` is blank is answered 400, not the claimed 409 —
the blank-field check runs before the duplicate check. -/
theorem register_duplicate_with_blank_field_400 :
    ((⟨[⟨1, "abcd", "pw", "nick"⟩], 2⟩ : UserState).users.any
      (fun u => u.username == "abcd")) = true ∧
    (registerProcess "abcd" "" "x" ⟨[⟨1, "abcd", "pw", "nick"⟩], 2⟩).1 = 400 ∧
    (400 : Nat) ≠ 409 := by
  decide

/-- C3 amended: when every required field is non-blank, a duplicate username
is answered 409 with the user collection (and counter) unchanged; a blank
required field is answered 400, also leaving the collection unchanged — the
blank check takes precedence over the duplicate check. -/
theorem register_conflict_atomic (username password nickname : String)
    (st : UserState) :
    (isEmptyOrWhitespace username = false →
      isEmptyOrWhitespace password = false →
      isEmptyOrWhitespace nickname = false →
      st.users.any (fun u => u.username == username) = true →
      registerProcess username password nickname st = (409, st)) ∧
    ((isEmptyOrWhitespace username || isEmptyOrWhitespace password ||
        isEmptyOrWhitespace nickname) = true →
      registerProcess username password nickname st = (400, st)) := by
  constructor
  · intro h1 h2 h3 hdup
    simp [registerProcess, h1, h2, h3, hdup]
  · intro hblank
    simp [registerProcess, hblank]

/-- Witness for `register_conflict_atomic` at a concrete duplicate request. -/
theorem register_conflict_atomic_witness :
    registerProcess "abcd" "pw" "nick" ⟨[⟨1, "abcd", "pw", "n"⟩], 2⟩ =
      (409, ⟨[⟨1, "abcd", "pw", "n"⟩], 2⟩) :=
  (register_conflict_atomic "abcd" "pw" "nick" ⟨[⟨1, "abcd", "pw", "n"⟩], 2⟩).1
    (by decide) (by decide) (by decide) (by decide)

/-- C6 counterexample: the handler accepts a username that violates the
alphanumeric/min-length-4 constraint declared by the register form — that
constraint exists only client-side, so a direct POST bypasses it. -/
theorem register_accepts_invalid_username :
    (registerProcess "a!" "pw" "nick" ⟨[], 1⟩).1 = 302 ∧
    (registerProcess "a!" "pw" "nick" ⟨[], 1⟩).2.users =
      [⟨1, "a!", "pw", "nick"⟩] ∧
    isValidUsernamePattern "a!" = false := by
  decide

/-- C6 amended: after every registration the usernames in the collection
remain pairwise distinct (case-sensitively); the alphanumeric/min-length-4
rule is enforced only by the client-side form pattern, not by the handler. -/
theorem register_preserves_username_uniqueness
    (username password nickname : String) (st : UserState)
    (h : st.users.Pairwise (fun u v => u.username ≠ v.username)) :
    ((registerProcess username password nickname st).2.users).Pairwise
      (fun u v => u.username ≠ v.username) := by
  unfold registerProcess
  by_cases hb : (isEmptyOrWhitespace username || isEmptyOrWhitespace password ||
      isEmptyOrWhitespace nickname) = true
  · simp [hb, h]
  · simp only [Bool.not_eq_true] at hb
    by_cases hd : st.users.any (fun u => u.username == username) = true
    · simp [hb, hd, h]
    · simp only [Bool.not_eq_true] at hd
      simp only [hb, hd, Bool.false_eq_true, if_false]
      rw [List.pairwise_append]
      refine ⟨h, List.pairwise_singleton _ _, ?_⟩
      intro u hu v hv
      simp only [List.mem_singleton] at hv
      subst hv
      have := List.any_eq_false.mp hd u hu
      simpa using this

/-- Witness for `register_preserves_username_uniqueness` at a concrete
state. -/
theorem register_preserves_username_uniqueness_witness :
    ((registerProcess "efgh" "pw" "nick" ⟨[⟨1, "abcd", "pw", "n"⟩], 2⟩).2.users).Pairwise
      (fun u v => u.username ≠ v.username) :=
  register_preserves_username_uniqueness "efgh" "pw" "nick"
    ⟨[⟨1, "abcd", "pw", "n"⟩], 2⟩ (by decide)

/-- C2: with a logged-in user, both the GET `/update` route and the POST
`/delete_process` route answer 403 whenever the id resolves to a post whose
`author` differs from the user's id, and whenever the id resolves to no post
at all. -/
theorem nonauthor_update_delete_403 (u : PublicUser) (qid : Option String)
    (topics : List Topic) (nid : Int) :
    (∀ t : Topic, findTopic topics (parseIntOpt qid) = some t →
      t.author ≠ u.id →
      updateGetStatus (some u) qid topics = 403 ∧
      (deleteProcess (some u) qid ⟨topics, nid⟩).1 = 403) ∧
    (findTopic topics (parseIntOpt qid) = none →
      updateGetStatus (some u) qid topics = 403 ∧
      (deleteProcess (some u) qid ⟨topics, nid⟩).1 = 403) := by
  constructor
  · intro t hfind hauth
    constructor
    · simp [updateGetStatus, hfind, hauth]
    · simp [deleteProcess, hfind, hauth]
  · intro hfind
    constructor
    · simp [updateGetStatus, hfind]
    · simp [deleteProcess, hfind]

/-- Witness for `nonauthor_update_delete_403`: user 2 acting on a post whose
author is 7, and a logged-in user naming an id that exists nowhere. -/
theorem nonauthor_update_delete_403_witness :
    (updateGetStatus (some ⟨2, "u", "n"⟩) (some "1") [⟨1, "t", "d", 0, 0, 7⟩] = 403 ∧
      (deleteProcess (some ⟨2, "u", "n"⟩) (some "1") ⟨[⟨1, "t", "d", 0, 0, 7⟩], 2⟩).1 = 403) ∧
    (updateGetStatus (some ⟨2, "u", "n"⟩) (some "9") [⟨1, "t", "d", 0, 0, 7⟩] = 403 ∧
      (deleteProcess (some ⟨2, "u", "n"⟩) (some "9") ⟨[⟨1, "t", "d", 0, 0, 7⟩], 2⟩).1 = 403) :=
  ⟨(nonauthor_update_delete_403 ⟨2, "u", "n"⟩ (some "1") [⟨1, "t", "d", 0, 0, 7⟩] 2).1
      ⟨1, "t", "d", 0, 0, 7⟩ (by decide) (by decide),
   (nonauthor_update_delete_403 ⟨2, "u", "n"⟩ (some "9") [⟨1, "t", "d", 0, 0, 7⟩] 2).2
      (by decide)⟩

/-- C9: `/update_process` performs no blank-field validation — for the
logged-in author of the targeted post it answers 302 and stores the posted
`title` and `description` verbatim, for every string including empty and
whitespace-only ones; `/create_process`, by contrast, answers 400 whenever
`title` or `description` is blank. -/
theorem update_process_no_blank_validation :
    (∀ (u : PublicUser) (pid : Option String) (title description : String)
        (now : Int) (st : PostState) (i : Nat) (topic : Topic),
      st.topics.findIdx? (fun t => parseIntOpt pid == some t.id) = some i →
      st.topics[i]? = some topic →
      topic.author = u.id →
      updateProcess (some u) pid title description now st =
        (302, { topics := st.topics.set i
                  { topic with title := title, description := description,
                               updated_at := now },
                nextId := st.nextId })) ∧
    (∀ (u : PublicUser) (title description : String) (now : Int)
        (st : PostState),
      (isEmptyOrWhitespace title || isEmptyOrWhitespace description) = true →
      createProcess (some u) title description now st = (400, st)) := by
  constructor
  · intro u pid title description now st i topic hidx hget hauth
    simp [updateProcess, hidx, hget, hauth]
  · intro u title description now st hblank
    simp [createProcess, hblank]

/-- Witness for `update_process_no_blank_validation`: the author updates post
1 with an empty title and a whitespace-only description and the handler
stores them, while creating with an empty title is rejected. -/
theorem update_process_no_blank_validation_witness :
    updateProcess (some ⟨7, "u", "n"⟩) (some "1") "" " " 99
        ⟨[⟨1, "t", "d", 0, 0, 7⟩], 2⟩ =
      (302, ⟨[⟨1, "", " ", 0, 99, 7⟩], 2⟩) ∧
    createProcess (some ⟨7, "u", "n"⟩) "" "x" 99 ⟨[], 1⟩ = (400, ⟨[], 1⟩) := by
  constructor
  · exact update_process_no_blank_validation.1 ⟨7, "u", "n"⟩ (some "1") "" " " 99
      ⟨[⟨1, "t", "d", 0, 0, 7⟩], 2⟩ 0 ⟨1, "t", "d", 0, 0, 7⟩
      (by decide) (by decide) (by decide)
  · exact update_process_no_blank_validation.2 ⟨7, "u", "n"⟩ "" "x" 99 ⟨[], 1⟩
      (by decide)

/-- C5: `getLoggedInUser` yields no user whenever the `sessionId` cookie is
absent, the token is not in the session table, or the mapped user id matches
no user; and whenever it yields a user it is a password-stripped copy
(`stripPassword`, whose codomain `PublicUser` has no password field) of a
record in the user collection.  The returned value is a copy by construction
of the embedding: the stored collection is left untouched. -/
theorem getLoggedInUser_spec (cookies : List (String × String))
    (sessions : List (String × Int)) (users : List User) :
    (lookupStr cookies "sessionId" = none →
      getLoggedInUser cookies sessions users = none) ∧
    (∀ sid, lookupStr cookies "sessionId" = some sid →
      lookupSession sessions sid = none →
      getLoggedInUser cookies sessions users = none) ∧
    (∀ sid userId, lookupStr cookies "sessionId" = some sid →
      lookupSession sessions sid = some userId →
      users.find? (fun u => u.id == userId) = none →
      getLoggedInUser cookies sessions users = none) ∧
    (∀ pu, getLoggedInUser cookies sessions users = some pu →
      ∃ u ∈ users, pu = stripPassword u) := by
  refine ⟨?_, ?_, ?_, ?_⟩
  · intro h
    simp [getLoggedInUser, h]
  · intro sid h1 h2
    simp only [getLoggedInUser, h1, h2]
    split <;> rfl
  · intro sid userId h1 h2 h3
    simp only [getLoggedInUser, h1, h2, h3]
    split <;> [rfl; split <;> rfl]
  · intro pu h
    unfold getLoggedInUser at h
    cases hc : lookupStr cookies "sessionId" with
    | none => simp [hc] at h
    | some sid =>
      simp only [hc] at h
      by_cases hsid : sid = ""
      · simp [hsid] at h
      · simp only [if_neg hsid] at h
        cases hs : lookupSession sessions sid with
        | none => simp [hs] at h
        | some userId =>
          simp only [hs] at h
          by_cases h0 : userId = 0
          · simp [h0] at h
          · simp only [if_neg h0] at h
            cases hf : users.find? (fun u => u.id == userId) with
            | none => simp [hf] at h
            | some user =>
              simp only [hf, Option.some.injEq] at h
              exact ⟨user, List.mem_of_find?_eq_some hf, h.symm⟩

/-- Witness for `getLoggedInUser_spec`: a request with no cookies resolves to
no user, and a complete chain resolves to the stripped record. -/
theorem getLoggedInUser_spec_witness :
    getLoggedInUser [] [("t", 1)] [⟨1, "abcd", "pw", "A"⟩] = none :=
  (getLoggedInUser_spec [] [("t", 1)] [⟨1, "abcd", "pw", "A"⟩]).1 (by decide)

/-- The seed of a left fold of `max` over post ids is a lower bound of the
result. -/
theorem le_foldl_max_id (rest : List Topic) (x : Int) :
    x ≤ rest.foldl (fun m t => max m t.id) x := by
  induction rest generalizing x with
  | nil => exact le_refl x
  | cons t ts ih =>
    exact le_trans (le_max_left x t.id) (ih (max x t.id))

/-- Every id folded over is bounded by the fold of `max`. -/
theorem mem_id_le_foldl_max (rest : List Topic) (x : Int) :
    ∀ t ∈ rest, t.id ≤ rest.foldl (fun m t => max m t.id) x := by
  induction rest generalizing x with
  | nil => intro t ht; cases ht
  | cons s ts ih =>
    intro t ht
    rcases List.mem_cons.mp ht with rfl | hmem
    · exact le_trans (le_max_right x _) (le_foldl_max_id ts _)
    · exact ih (max x s.id) t hmem

/-- The fold of `max` over post ids is the seed or one of the folded ids. -/
theorem foldl_max_id_eq_seed_or_mem (rest : List Topic) (x : Int) :
    rest.foldl (fun m t => max m t.id) x = x ∨
    ∃ t ∈ rest, rest.foldl (fun m t => max m t.id) x = t.id := by
  induction rest generalizing x with
  | nil => exact Or.inl rfl
  | cons s ts ih =>
    rcases ih (max x s.id) with h | ⟨t, hmem, ht⟩
    · rcases max_choice x s.id with hm | hm
      · exact Or.inl (by rw [List.foldl_cons, h, hm])
      · exact Or.inr ⟨s, List.mem_cons_self s ts, by rw [List.foldl_cons, h, hm]⟩
    · exact Or.inr ⟨t, List.mem_cons_of_mem s hmem, ht⟩

/-- C1: the startup counter is `1` for an empty collection and
`max(existing ids) + 1` otherwise (so it exceeds every stored id and equals
some stored id plus one); a valid creation issues exactly the current
`nextId`, which is strictly greater than every previously issued id when the
invariant held, and bumps the counter by one re-establishing the invariant;
deletion never changes the counter. -/
theorem post_ids_monotone :
    (initNextId [] = 1) ∧
    (∀ ts : List Topic, ts ≠ [] →
      (∀ t ∈ ts, t.id < initNextId ts) ∧
      (∃ t ∈ ts, initNextId ts = t.id + 1)) ∧
    (∀ (u : PublicUser) (title description : String) (now : Int)
        (st : PostState) (issued : List Int),
      (∀ i ∈ issued, i < st.nextId) →
      (isEmptyOrWhitespace title || isEmptyOrWhitespace description) = false →
      (createProcess (some u) title description now st).1 = 302 ∧
      (createProcess (some u) title description now st).2.topics =
        st.topics ++ [⟨st.nextId, title, description, now, now, u.id⟩] ∧
      (∀ i ∈ issued, i < st.nextId) ∧
      (createProcess (some u) title description now st).2.nextId =
        st.nextId + 1 ∧
      (∀ i ∈ st.nextId :: issued,
        i < (createProcess (some u) title description now st).2.nextId)) ∧
    (∀ (lu : Option PublicUser) (pid : Option String) (st : PostState),
      (deleteProcess lu pid st).2.nextId = st.nextId) := by
  refine ⟨rfl, ?_, ?_, ?_⟩
  · intro ts hne
    match ts with
    | [] => exact absurd rfl hne
    | t :: rest =>
      constructor
      · intro s hs
        rcases List.mem_cons.mp hs with rfl | hmem
        · exact lt_of_le_of_lt (le_foldl_max_id rest _) (lt_add_one _)
        · exact lt_of_le_of_lt (mem_id_le_foldl_max rest t.id s hmem)
            (lt_add_one _)
      · rcases foldl_max_id_eq_seed_or_mem rest t.id with h | ⟨s, hmem, hs⟩
        · exact ⟨t, List.mem_cons_self t rest, by simp [initNextId, h]⟩
        · exact ⟨s, List.mem_cons_of_mem t hmem, by simp [initNextId, hs]⟩
  · intro u title description now st issued hinv hblank
    refine ⟨?_, ?_, hinv, ?_, ?_⟩
    · simp [createProcess, hblank]
    · simp [createProcess, hblank]
    · simp [createProcess, hblank]
    · intro i hi
      simp only [createProcess, hblank, Bool.false_eq_true, if_false]
      cases hi with
      | head => exact lt_add_one _
      | tail _ hmem => exact lt_trans (hinv i hmem) (lt_add_one _)
  · intro lu pid st
    unfold deleteProcess
    cases lu with
    | none => rfl
    | some u =>
      cases hf : findTopic st.topics (parseIntOpt pid) with
      | none => simp [hf]
      | some t =>
        by_cases ha : (t.author == u.id) = true
        · simp [hf, ha]
        · simp only [Bool.not_eq_true] at ha
          simp [hf, ha]

/-- A take of a sum splits into a take followed by a take of the drop. -/
theorem take_add_append (l : List Topic) (m n : Nat) :
    l.take (m + n) = l.take m ++ (l.drop m).take n := by
  calc l.take (m + n)
      = (l.take (m + n)).take m ++ (l.take (m + n)).drop m :=
        (List.take_append_drop m _).symm
    _ = l.take m ++ (l.drop m).take n := by
        rw [List.take_take, min_eq_left (Nat.le_add_right m n), List.take_drop]

/-- Concatenating the first `k` consecutive `limit`-sized chunks of a list
yields its first `k * limit` elements. -/
theorem flatten_chunks (l : List Topic) (limit : Nat) :
    ∀ k : Nat, ((List.range k).map
      (fun i => (l.drop (i * limit)).take limit)).flatten = l.take (k * limit)
  | 0 => by simp
  | k + 1 => by
    rw [List.range_succ, List.map_append, List.flatten_append,
      flatten_chunks l limit k]
    simp only [List.map_cons, List.map_nil, List.flatten_cons,
      List.flatten_nil, List.append_nil]
    rw [← take_add_append]
    congr 1
    ring

/-- A positive `limit` times the ceiling of `n / limit` is at least `n`. -/
theorem le_totalPages_mul (n limit : Nat) (hl : 1 ≤ limit) :
    n ≤ totalPagesNat n limit * limit := by
  rcases Nat.eq_zero_or_pos n with h0 | hn
  · simp [h0]
  · unfold totalPagesNat
    have h1 : n + limit - 1 = (n - 1) + limit := by omega
    rw [h1, Nat.add_div_right _ hl]
    have ha := Nat.div_add_mod (n - 1) limit
    have hb := Nat.mod_lt (n - 1) (show 0 < limit from hl)
    calc n = limit * ((n - 1) / limit) + ((n - 1) % limit + 1) := by omega
      _ ≤ limit * ((n - 1) / limit) + limit := Nat.add_le_add_left hb _
      _ = ((n - 1) / limit + 1) * limit := by ring

/-- C4: for every post list and every `limit ≥ 1`, concatenating the slices
of pages `1 .. ceil(totalCount / limit)` reproduces the full sorted sequence
(no duplicates, no omissions), and any page number beyond the last page
yields an empty slice rather than an error. -/
theorem paginate_partition (l : List Topic) (limit : Nat) (hl : 1 ≤ limit) :
    allPages l limit = l ∧
    (∀ page : Nat, totalPagesNat l.length limit < page →
      pageSlice l page limit = []) := by
  constructor
  · show ((List.range (totalPagesNat l.length limit)).map
      (fun i => pageSlice l (i + 1) limit)).flatten = l
    have hfun : (fun i => pageSlice l (i + 1) limit) =
        (fun i => (l.drop (i * limit)).take limit) := by
      funext i
      simp [pageSlice]
    rw [hfun, flatten_chunks]
    exact List.take_of_length_le (le_totalPages_mul l.length limit hl)
  · intro page hpage
    unfold pageSlice
    rw [List.drop_eq_nil_of_le, List.take_nil]
    calc l.length ≤ totalPagesNat l.length limit * limit :=
          le_totalPages_mul l.length limit hl
      _ ≤ (page - 1) * limit :=
          Nat.mul_le_mul (by omega) (Nat.le_refl limit)

/-- On a list of posts with pairwise distinct timestamps, the stable sort by
the descending comparator is the reverse of the stable sort by the ascending
comparator: both are permutations of the input that are strictly sorted by
descending `created_at`, and strictly sorted permutations coincide. -/
theorem mergeSort_latest_eq_reverse_oldest (l : List Topic)
    (hd : l.Pairwise (fun a b => a.created_at ≠ b.created_at)) :
    l.mergeSort (fun a b => decide (b.created_at ≤ a.created_at)) =
      (l.mergeSort (fun a b => decide (a.created_at ≤ b.created_at))).reverse := by
  have permA := List.mergeSort_perm l
    (fun a b => decide (b.created_at ≤ a.created_at))
  have permB := List.mergeSort_perm l
    (fun a b => decide (a.created_at ≤ b.created_at))
  have sortedA : (l.mergeSort (fun a b => decide (b.created_at ≤ a.created_at))).Pairwise
      (fun a b : Topic => decide (b.created_at ≤ a.created_at) = true) :=
    List.sorted_mergeSort
      (by intro a b c h1 h2; simp only [decide_eq_true_eq] at *; omega)
      (by intro a b; simp only [Bool.or_eq_true, decide_eq_true_eq]; omega) l
  have sortedB : (l.mergeSort (fun a b => decide (a.created_at ≤ b.created_at))).Pairwise
      (fun a b : Topic => decide (a.created_at ≤ b.created_at) = true) :=
    List.sorted_mergeSort
      (by intro a b c h1 h2; simp only [decide_eq_true_eq] at *; omega)
      (by intro a b; simp only [Bool.or_eq_true, decide_eq_true_eq]; omega) l
  have distA : (l.mergeSort (fun a b => decide (b.created_at ≤ a.created_at))).Pairwise
      (fun a b : Topic => a.created_at ≠ b.created_at) :=
    (permA.pairwise_iff (fun h => Ne.symm h)).mpr hd
  have distB : (l.mergeSort (fun a b => decide (a.created_at ≤ b.created_at))).Pairwise
      (fun a b : Topic => a.created_at ≠ b.created_at) :=
    (permB.pairwise_iff (fun h => Ne.symm h)).mpr hd
  have strictA : (l.mergeSort (fun a b => decide (b.created_at ≤ a.created_at))).Pairwise
      (fun a b : Topic => b.created_at < a.created_at) :=
    (sortedA.and distA).imp (fun h =>
      lt_of_le_of_ne (of_decide_eq_true h.1) (Ne.symm h.2))
  have strictB : (l.mergeSort (fun a b => decide (a.created_at ≤ b.created_at))).Pairwise
      (fun a b : Topic => a.created_at < b.created_at) :=
    (sortedB.and distB).imp (fun h =>
      lt_of_le_of_ne (of_decide_eq_true h.1) h.2)
  have strictBrev : ((l.mergeSort (fun a b => decide (a.created_at ≤ b.created_at))).reverse).Pairwise
      (fun a b : Topic => b.created_at < a.created_at) :=
    List.pairwise_reverse.mpr strictB
  have perm : List.Perm
      (l.mergeSort (fun a b => decide (b.created_at ≤ a.created_at)))
      ((l.mergeSort (fun a b => decide (a.created_at ≤ b.created_at))).reverse) :=
    permA.trans (permB.symm.trans (List.reverse_perm _).symm)
  haveI : IsAntisymm Topic (fun a b : Topic => b.created_at < a.created_at) :=
    ⟨fun a b h1 h2 => absurd (lt_trans h1 h2) (lt_irrefl _)⟩
  exact List.eq_of_perm_of_sorted perm strictA strictBrev

/-- C8: for posts with pairwise distinct `created_at` timestamps, sorting
with key `latest` is exactly the reverse of sorting with key `oldest`, and
any unrecognized sort key produces the same order as `latest` (the `switch`
default repeats the `latest` comparator).  Non-mutation of the input is
structural: the embedding is a pure function of the copied array. -/
theorem sort_latest_reverse_oldest (l : List Topic)
    (hd : l.Pairwise (fun a b => a.created_at ≠ b.created_at)) :
    sortTopics l "latest" = (sortTopics l "oldest").reverse ∧
    (∀ key : String, key ≠ "latest" → key ≠ "oldest" → key ≠ "title_asc" →
      sortTopics l key = sortTopics l "latest") := by
  constructor
  · have hA : sortTopics l "latest" =
        l.mergeSort (fun a b => decide (b.created_at ≤ a.created_at)) := by
      simp [sortTopics]
    have hB : sortTopics l "oldest" =
        l.mergeSort (fun a b => decide (a.created_at ≤ b.created_at)) := by
      simp [sortTopics]
    rw [hA, hB]
    exact mergeSort_latest_eq_reverse_oldest l hd
  · intro key h1 h2 h3
    simp [sortTopics, h1, h2, h3]

/-- Witness for `sort_latest_reverse_oldest` at a concrete list with
distinct timestamps. -/
theorem sort_latest_reverse_oldest_witness :
    sortTopics [⟨1, "a", "x", 0, 0, 1⟩, ⟨2, "b", "y", 5, 5, 1⟩] "latest" =
      (sortTopics [⟨1, "a", "x", 0, 0, 1⟩, ⟨2, "b", "y", 5, 5, 1⟩] "oldest").reverse :=
  (sort_latest_reverse_oldest [⟨1, "a", "x", 0, 0, 1⟩, ⟨2, "b", "y", 5, 5, 1⟩]
    (by decide)).1

/-- Witness for `paginate_partition` at a concrete two-element list with
`limit = 1`. -/
theorem paginate_partition_witness :
    allPages [⟨1, "a", "x", 0, 0, 1⟩, ⟨2, "b", "y", 5, 5, 1⟩] 1 =
      [⟨1, "a", "x", 0, 0, 1⟩, ⟨2, "b", "y", 5, 5, 1⟩] :=
  (paginate_partition [⟨1, "a", "x", 0, 0, 1⟩, ⟨2, "b", "y", 5, 5, 1⟩] 1
    (by decide)).1

/-- Witness for `post_ids_monotone`: creating a post at `nextId = 3` with
already-issued ids `1` and `2`. -/
theorem post_ids_monotone_witness :
    (createProcess (some ⟨1, "u", "n"⟩) "t" "d" 5 ⟨[], 3⟩).1 = 302 ∧
    (createProcess (some ⟨1, "u", "n"⟩) "t" "d" 5 ⟨[], 3⟩).2.topics =
      [] ++ [⟨3, "t", "d", 5, 5, 1⟩] ∧
    (∀ i ∈ [(1 : Int), 2], i < 3) ∧
    (createProcess (some ⟨1, "u", "n"⟩) "t" "d" 5 ⟨[], 3⟩).2.nextId = 3 + 1 ∧
    (∀ i ∈ (3 : Int) :: [1, 2],
      i < (createProcess (some ⟨1, "u", "n"⟩) "t" "d" 5 ⟨[], 3⟩).2.nextId) :=
  post_ids_monotone.2.2.1 ⟨1, "u", "n"⟩ "t" "d" 5 ⟨[], 3⟩ [1, 2]
    (by decide) (by decide)

end Board
